import Mathlib

/-!
Shallow embedding of the Ruta repository's route-resolution core: the
polyline decoder and provider fallback of `CebuMap.js` (`decodePolyline`,
`fetchRoute`), the From/To waypoint handlers (the `useLocationHandlers`
hook and the inline `CebuMap.js` handlers), `clearRoute`, the
suggest-route input validation (`app/api/Routes/suggest/route.js`), the
address formatter (`utils/addressFormatter.js`) and the reverse-geocode
cache (`app/api/reverse/route.js`).  Numbers that JavaScript stores in
float64 are modelled as rationals; JavaScript 32-bit bitwise operations
are modelled explicitly on `Int` and `Nat`; JavaScript strings are
modelled as Lean strings, scanned through their character lists.
-/

namespace Ruta

/-! ### JavaScript 32-bit integer primitives -/

/-- Unsigned 32-bit pattern of an integral JavaScript number (`ToUint32`). -/
def u32 (n : Int) : Nat := (n % 4294967296).toNat

/-- Signed reading of a 32-bit pattern (the value `ToInt32` produces). -/
def s32 (u : Nat) : Int := if u < 2147483648 then (u : Int) else (u : Int) - 4294967296

/-- JavaScript `a | b`: both operands are converted to 32 bits, or-ed, read back signed. -/
def jsOr (a b : Int) : Int := s32 (u32 a ||| u32 b)

/-- JavaScript `a << k`: the shift count is reduced mod 32 and the result truncated to 32 bits. -/
def jsShl (a : Int) (k : Nat) : Int := s32 (u32 a * 2 ^ (k % 32) % 4294967296)

/-- JavaScript `byte & 0x1f`: the low five bits of the two's complement pattern. -/
def jsLow5 (b : Int) : Int := b % 32

/-- JavaScript `(result & 1) ? ~(result >> 1) : (result >> 1)`: `>> 1` is the
arithmetic shift (floor halving) and `~h` is `-h - 1`. -/
def zigzagDecode (r : Int) : Int :=
  let h := (r - r % 2) / 2
  if r % 2 = 1 then -h - 1 else h

/-! ### PolylineCodec: `decodePolyline` of `CebuMap.js`

The input string is represented by its list of UTF-16 code units.  The
inner `do { byte = str.charCodeAt(index++) - 63; result |= (byte & 0x1f)
<< shift; shift += 5; } while (byte >= 0x20)` loop is `readChunks`:
reading past the end of the string gives `NaN`, whose `& 0x1f` is `0`
and which fails `byte >= 0x20`, so the empty list ends the group. -/

def readChunks : List Nat → Nat → Int → Int × List Nat
  | [], _, result => (result, [])
  | c :: cs, shift, result =>
    let b : Int := (c : Int) - 63
    let result' := jsOr result (jsShl (jsLow5 b) shift)
    if 32 ≤ b then readChunks cs (shift + 5) result' else (result', cs)

/-- The outer `while (index < str.length)` loop.  Each iteration consumes at
least one code unit, so fuel equal to the length of the list suffices. -/
def decodeLoop : Nat → List Nat → Int → Int → List (Int × Int)
  | 0, _, _, _ => []
  | _ + 1, [], _, _ => []
  | fuel + 1, c :: cs, lat, lng =>
    let r1 := readChunks (c :: cs) 0 0
    let dlat := zigzagDecode r1.1
    let r2 := readChunks r1.2 0 0
    let dlng := zigzagDecode r2.1
    (lat + dlat, lng + dlng) :: decodeLoop fuel r2.2 (lat + dlat) (lng + dlng)

/-- `decodePolyline(str, precision)` of `CebuMap.js`: each accumulated pair is
divided by `factor = 10 ^ precision`. -/
def decodePolyline (codes : List Nat) (precision : Nat) : List (ℚ × ℚ) :=
  (decodeLoop codes.length codes 0 0).map fun p =>
    ((p.1 : ℚ) / 10 ^ precision, (p.2 : ℚ) / 10 ^ precision)

/-- Number of code units one group run consumes: a byte `c - 63 ≥ 0x20`,
i.e. `c ≥ 95`, continues the run; any other byte (or the end of the
string) terminates it. -/
def runLen : List Nat → Nat
  | [] => 0
  | c :: cs => if 95 ≤ c then runLen cs + 1 else 1

/-- Every group run met while scanning has at most six groups.  Six
five-bit groups fill thirty bits, so 32-bit JavaScript arithmetic is
exact on such inputs; every real polyline coordinate satisfies this. -/
def goodScan : Nat → List Nat → Bool
  | 0, _ => true
  | _ + 1, [] => true
  | fuel + 1, c :: cs =>
    let l1 := (c :: cs).drop (runLen (c :: cs))
    let l2 := l1.drop (runLen l1)
    decide (runLen (c :: cs) ≤ 6) && decide (runLen l1 ≤ 6) && goodScan fuel l2

/-! Reference decoder following the specification's words: the groups
(`input byte minus 63, low 5 bits kept`) are reassembled
least-significant-group-first into an unbounded signed integer, zig-zag
decoded with the quoted formula, and added to the running accumulators. -/

/-- Group-run reassembly as the specification states it, on unbounded
naturals: group `i` contributes its five bits at position `5 * i`. -/
def readChunksSpec : List Nat → Nat → Nat → Nat × List Nat
  | [], _, result => (result, [])
  | c :: cs, shift, result =>
    let b : Int := (c : Int) - 63
    let result' := result ||| ((jsLow5 b).toNat <<< shift)
    if 32 ≤ b then readChunksSpec cs (shift + 5) result' else (result', cs)

def decodeLoopSpec : Nat → List Nat → Int → Int → List (Int × Int)
  | 0, _, _, _ => []
  | _ + 1, [], _, _ => []
  | fuel + 1, c :: cs, lat, lng =>
    let r1 := readChunksSpec (c :: cs) 0 0
    let dlat := zigzagDecode (r1.1 : Int)
    let r2 := readChunksSpec r1.2 0 0
    let dlng := zigzagDecode (r2.1 : Int)
    (lat + dlat, lng + dlng) :: decodeLoopSpec fuel r2.2 (lat + dlat) (lng + dlng)

def decodePolylineSpec (codes : List Nat) (precision : Nat) : List (ℚ × ℚ) :=
  (decodeLoopSpec codes.length codes 0 0).map fun p =>
    ((p.1 : ℚ) / 10 ^ precision, (p.2 : ℚ) / 10 ^ precision)

/-! ### RouteResolver: `fetchRoute` of `CebuMap.js`

A provider call is modelled by its observable outcome.  `OsrmOutcome.ok`
carries the parsed `data.routes`, each route being its
`geometry.coordinates`, in the wire order `(longitude, latitude)`;
`GhOutcome.ok` carries the parsed `ghData.paths`, each path being the
code-unit list of its encoded `points` string.  `fail` covers a thrown
fetch, a non-2xx status and an unparsable body, all of which land in the
same `catch`.  An `ok` outcome with an empty route list also reaches the
`catch` through the explicit `throw`. -/

inductive OsrmOutcome
  | fail
  | ok (routes : List (List (ℚ × ℚ)))

inductive GhOutcome
  | fail
  | ok (paths : List (List Nat))

inductive ProviderCall
  | osrm
  | graphhopper
  deriving DecidableEq

/-- `fetchRoute`, instrumented with the list of providers it contacts, in
order.  The GraphHopper request occurs only inside the `catch` of the
OSRM attempt, and the straight-line fallback only inside the `catch` of
the GraphHopper attempt. -/
def fetchRouteT (s e : ℚ × ℚ) (osrm : OsrmOutcome) (gh : GhOutcome) :
    List ProviderCall × List (ℚ × ℚ) :=
  match osrm with
  | .ok (r :: _) => ([.osrm], r.map fun c => (c.2, c.1))
  | _ =>
    match gh with
    | .ok (p :: _) => ([.osrm, .graphhopper], decodePolyline p 5)
    | _ => ([.osrm, .graphhopper], [s, e])

/-- The route coordinates `fetchRoute` stores. -/
def fetchRoute (s e : ℚ × ℚ) (osrm : OsrmOutcome) (gh : GhOutcome) : List (ℚ × ℚ) :=
  (fetchRouteT s e osrm gh).2

/-- An OSRM outcome yields a route iff the response was ok and `data.routes` is non-empty. -/
def OsrmOutcome.usable : OsrmOutcome → Bool
  | .ok (_ :: _) => true
  | _ => false

/-- A GraphHopper outcome yields a path iff the response was ok and `ghData.paths` is non-empty. -/
def GhOutcome.usable : GhOutcome → Bool
  | .ok (_ :: _) => true
  | _ => false

/-! ### WaypointStore: the From/To waypoint handlers

A stored location array `[lat, lng, label]` is a `Waypoint`; the React
state the handlers read and write is a `RouteState`.  `destination` is
the current pin; a pin set by a map click always carries both
coordinates, so a present pin is modelled as a whole waypoint. -/

structure Waypoint where
  lat : ℚ
  lng : ℚ
  label : Option String
  deriving DecidableEq

inductive RouteMode
  | fromMode
  | toMode
  deriving DecidableEq

structure RouteState where
  destination : Option Waypoint
  fromLocation : Option Waypoint
  toLocation : Option Waypoint
  routeMode : Option RouteMode
  routeCoordinates : List (ℚ × ℚ)
  deriving DecidableEq

/-- JavaScript `s || dflt` on an optionally present string: `undefined`
and the empty string are falsy, so both fall back to the default. -/
def jsOrDefault (l : Option String) (dflt : String) : String :=
  match l with
  | some s => if s = "" then dflt else s
  | none => dflt

/-- Which console branch a failed set took in the `useLocationHandlers`
hook: `alreadySet` is the "already set. Click Clear Route first"
message, `noPin` the "Pin a location first" message. -/
inductive SetPointError
  | alreadySet
  | noPin
  deriving DecidableEq

namespace LocationHandlers

/-- Synchronous part of `setFromPoint` of the `useLocationHandlers` hook
(`src/unnamed/part_002`): refuses to act when `fromLocation` is already
set, refuses when no pin exists, otherwise stores the pin immediately
with its name or the default label and sets the mode. -/
def setFromPoint (st : RouteState) : RouteState × Option SetPointError :=
  if st.fromLocation.isSome then (st, some .alreadySet)
  else
    match st.destination with
    | none => (st, some .noPin)
    | some d =>
      ({ st with
          fromLocation := some ⟨d.lat, d.lng, some (jsOrDefault d.label "From Location")⟩,
          routeMode := some .fromMode }, none)

/-- Synchronous part of `setToPoint` of the hook, mirroring `setFromPoint`. -/
def setToPoint (st : RouteState) : RouteState × Option SetPointError :=
  if st.toLocation.isSome then (st, some .alreadySet)
  else
    match st.destination with
    | none => (st, some .noPin)
    | some d =>
      ({ st with
          toLocation := some ⟨d.lat, d.lng, some (jsOrDefault d.label "To Location")⟩,
          routeMode := some .toMode }, none)

end LocationHandlers

namespace CebuMap

/-- `setFromPoint` of `CebuMap.js`: it never inspects the existing
`fromLocation`, it only requires a pinned destination. -/
def setFromPoint (st : RouteState) : RouteState :=
  match st.destination with
  | some d =>
    { st with
        fromLocation := some ⟨d.lat, d.lng, some (jsOrDefault d.label "From Location")⟩,
        routeMode := some .fromMode }
  | none => st

/-- `setToPoint` of `CebuMap.js` (the default label there is "To location"). -/
def setToPoint (st : RouteState) : RouteState :=
  match st.destination with
  | some d =>
    { st with
        toLocation := some ⟨d.lat, d.lng, some (jsOrDefault d.label "To location")⟩,
        routeMode := some .toMode }
  | none => st

/-- `clearRoute` of `CebuMap.js`: one synchronous handler clearing the
route, the two waypoints and the mode; the pin is kept. -/
def clearRoute (st : RouteState) : RouteState :=
  { st with
      routeCoordinates := [],
      fromLocation := none,
      toLocation := none,
      routeMode := none }

end CebuMap

/-! The hook's `setFromPoint`/`setToPoint` also start a detached
reverse-geocode whose callback runs `setFromLocation([lat, lng,
formattedAddress])` with the captured coordinates, without consulting
the state current at arrival time.  `HookState` adds the in-flight
upgrades (at most one per waypoint, which covers the executions the
claims are about), and `hookStep` is one event of the interleaving. -/

structure HookState where
  route : RouteState
  pendingFrom : Option (ℚ × ℚ)
  pendingTo : Option (ℚ × ℚ)
  deriving DecidableEq

inductive HookEvent
  | setFromClick
  | setToClick
  | clearClick
  | fromLabelResolved (addr : Option String)
  | toLabelResolved (addr : Option String)

def hookStep (s : HookState) : HookEvent → HookState
  | .setFromClick =>
    let r := LocationHandlers.setFromPoint s.route
    if r.2.isNone then
      { s with route := r.1, pendingFrom := s.route.destination.map fun d => (d.lat, d.lng) }
    else { s with route := r.1 }
  | .setToClick =>
    let r := LocationHandlers.setToPoint s.route
    if r.2.isNone then
      { s with route := r.1, pendingTo := s.route.destination.map fun d => (d.lat, d.lng) }
    else { s with route := r.1 }
  | .clearClick =>
    { s with route := CebuMap.clearRoute s.route }
  | .fromLabelResolved addr =>
    match s.pendingFrom, addr with
    | some (lat, lng), some a =>
      if a = "" then { s with pendingFrom := none }
      else
        { s with
            route := { s.route with fromLocation := some ⟨lat, lng, some a⟩ },
            pendingFrom := none }
    | some _, none => { s with pendingFrom := none }
    | none, _ => s
  | .toLabelResolved addr =>
    match s.pendingTo, addr with
    | some (lat, lng), some a =>
      if a = "" then { s with pendingTo := none }
      else
        { s with
            route := { s.route with toLocation := some ⟨lat, lng, some a⟩ },
            pendingTo := none }
    | some _, none => { s with pendingTo := none }
    | none, _ => s

/-! ### TransitSuggestionClient: input validation of the suggest route

`POST` of `app/api/Routes/suggest/route.js` parses `{ fromLocation,
toLocation }`, both JavaScript arrays of numbers (absent fields are
`none`), and rejects before any OpenAI call when a guard fires.
`proceed` is reached exactly when the handler goes on to the network
request. -/

structure SuggestBody where
  fromLocation : Option (List ℚ)
  toLocation : Option (List ℚ)

inductive SuggestCheck
  | missingLocations
  | invalidCoordinates
  | proceed
  deriving DecidableEq

/-- Truthiness of an indexed element: `undefined` is falsy, a number is
falsy exactly when it is zero. -/
def jsNumTruthy : Option ℚ → Bool
  | none => false
  | some q => decide (q ≠ 0)

def suggestValidate (b : SuggestBody) : SuggestCheck :=
  match b.fromLocation, b.toLocation with
  | some f, some t =>
    if !jsNumTruthy (f.get? 0) || !jsNumTruthy (f.get? 1) ||
        !jsNumTruthy (t.get? 0) || !jsNumTruthy (t.get? 1) then
      .invalidCoordinates
    else
      .proceed
  | _, _ => .missingLocations

/-! ### AddressFormatter: `formatAddress` of `utils/addressFormatter.js`

String operations are carried out on the character lists so that the
embedding mirrors the JavaScript operations directly. -/

/-- `String.prototype.split(',')`. -/
def splitCommaAux : List Char → List Char → List String
  | [], acc => [String.mk acc.reverse]
  | c :: cs, acc =>
    if c = ',' then String.mk acc.reverse :: splitCommaAux cs []
    else splitCommaAux cs (c :: acc)

def splitComma (s : String) : List String := splitCommaAux s.data []

/-- `String.prototype.trim()` (whitespace as Lean classifies it). -/
def jsTrim (s : String) : String :=
  String.mk (((s.data.dropWhile Char.isWhitespace).reverse.dropWhile Char.isWhitespace).reverse)

/-- Lower-casing for the `/i` regex flags (ASCII letters). -/
def lowerStr (s : String) : String := String.mk (s.data.map Char.toLower)

/-- Anchored prefix test for the unanchored-tail regexes. -/
def strStarts (s p : String) : Bool := p.data.isPrefixOf s.data

/-- `/^\d{4,}$/`: only digits and at least four of them. -/
def isPostalCode (s : String) : Bool :=
  decide (4 ≤ s.data.length) && s.data.all Char.isDigit

/-- The `unwantedPatterns` list: `/^\d{4,}$/`, `/^Philippines?$/i`,
`/^Cebu$/i`, `/^Region VII/i`, `/^Central Visayas/i`, `/^Visayas$/i`. -/
def isUnwanted (s : String) : Bool :=
  isPostalCode s || decide (lowerStr s = "philippines") || decide (lowerStr s = "philippine") ||
    decide (lowerStr s = "cebu") || strStarts (lowerStr s) "region vii" ||
    strStarts (lowerStr s) "central visayas" || decide (lowerStr s = "visayas")

/-- `Array.prototype.join(sep)`. -/
def joinWith (sep : String) : List String → String
  | [] => ""
  | [x] => x
  | x :: xs => x ++ sep ++ joinWith sep xs

/-- `fullAddress.split(',').map(trim).filter(part => part)`. -/
def addressParts (s : String) : List String :=
  ((splitComma s).map jsTrim).filter fun p => p ≠ ""

/-- `formatAddress` of `utils/addressFormatter.js`. -/
def formatAddress (fullAddress : String) : Option String :=
  if fullAddress = "" then none
  else
    let parts := addressParts fullAddress
    let filtered := parts.filter fun p => !isUnwanted p
    let relevant := filtered.take 3
    if 2 ≤ relevant.length then some (joinWith ", " relevant)
    else if relevant.length = 1 then relevant.head?
    else
      let fb := joinWith ", " (parts.take 2)
      some (if fb = "" then fullAddress else fb)

/-- The formatting ladder as the specification words it: split on
commas, trim, drop empties, drop administrative noise, keep at most the
first three remaining segments; join when at least two remain, return
the single one when exactly one remains, otherwise fall back to the
first two segments and finally to the original string. -/
def formatAddressSpec (raw : String) : Option String :=
  if raw = "" then none
  else
    let segments := addressParts raw
    let kept := (segments.filter fun p => !isUnwanted p).take 3
    match kept with
    | [] =>
      let fb := joinWith ", " (segments.take 2)
      some (if fb = "" then raw else fb)
    | [x] => some x
    | xs => some (joinWith ", " xs)

/-! ### GeocodeCache: the `CACHE` map of `app/api/reverse/route.js`

The key is `lat.toFixed(6) + "," + lng.toFixed(6)`.  `toFixed` prints a
minus sign exactly when the number is negative and rounds the absolute
value half-up at the sixth decimal, so the key is modelled by the sign
together with the rounded magnitude.  `CACHE.set` is paired with
`setTimeout(() => CACHE.delete(key), 60 * 1000)`; eviction is modelled
by sweeping every entry whose deadline has passed before a lookup, i.e.
due timers are assumed to have fired. -/

def toFixed6Key (q : ℚ) : Bool × ℤ := (decide (q < 0), (|q| * 1000000 + 1 / 2).floor)

def pointKey (p : ℚ × ℚ) : (Bool × ℤ) × (Bool × ℤ) := (toFixed6Key p.1, toFixed6Key p.2)

structure CacheEntry where
  key : (Bool × ℤ) × (Bool × ℤ)
  displayName : String
  expiresAt : ℚ

abbrev GeocodeCache := List CacheEntry

/-- The timers due at `now` have fired: entries past their deadline are gone. -/
def cacheSweep (c : GeocodeCache) (now : ℚ) : List CacheEntry :=
  List.filter (fun e => decide (now < e.expiresAt)) c

/-- `CACHE.has`/`CACHE.get` for the point's rounded key. -/
def cacheLookup (c : GeocodeCache) (now : ℚ) (p : ℚ × ℚ) : Option String :=
  ((cacheSweep c now).find? fun e => decide (e.key = pointKey p)).map CacheEntry.displayName

/-- `CACHE.set(key, payload)` plus the 60-second deletion timer. -/
def cacheStore (c : GeocodeCache) (now : ℚ) (p : ℚ × ℚ) (addr : String) : GeocodeCache :=
  ⟨pointKey p, addr, now + 60000⟩ :: List.filter (fun e => decide (e.key ≠ pointKey p)) c

/-! ## Lemmas about the polyline decoder -/

theorem byte_ge_iff (c : Nat) : 32 ≤ (c : Int) - 63 ↔ 95 ≤ c := by omega

theorem runLen_pos (c : Nat) (cs : List Nat) : 1 ≤ runLen (c :: cs) := by
  unfold runLen; split <;> omega

theorem readChunks_snd : ∀ (l : List Nat) (shift : Nat) (r : Int),
    (readChunks l shift r).2 = l.drop (runLen l) := by
  intro l
  induction l with
  | nil => intro shift r; rfl
  | cons c cs ih =>
    intro shift r
    simp only [readChunks, runLen]
    by_cases h : 32 ≤ (c : Int) - 63
    · have hc : 95 ≤ c := (byte_ge_iff c).mp h
      rw [if_pos h, if_pos hc, ih, List.drop_succ_cons]
    · have hc : ¬ 95 ≤ c := fun hcc => h ((byte_ge_iff c).mpr hcc)
      rw [if_neg h, if_neg hc]
      rfl

theorem readChunksSpec_snd : ∀ (l : List Nat) (shift r : Nat),
    (readChunksSpec l shift r).2 = l.drop (runLen l) := by
  intro l
  induction l with
  | nil => intro shift r; rfl
  | cons c cs ih =>
    intro shift r
    simp only [readChunksSpec, runLen]
    by_cases h : 32 ≤ (c : Int) - 63
    · have hc : 95 ≤ c := (byte_ge_iff c).mp h
      rw [if_pos h, if_pos hc, ih, List.drop_succ_cons]
    · have hc : ¬ 95 ≤ c := fun hcc => h ((byte_ge_iff c).mpr hcc)
      rw [if_neg h, if_neg hc]
      rfl

theorem u32_ofNat {n : Nat} (h : n < 4294967296) : u32 (n : Int) = n := by
  unfold u32
  rw [Int.emod_eq_of_lt (by positivity) (by exact_mod_cast h)]
  simp

theorem s32_small {u : Nat} (h : u < 2147483648) : s32 u = (u : Int) := by
  unfold s32
  rw [if_pos h]

theorem lor_lt_pow {a b n : Nat} (ha : a < 2 ^ n) (hb : b < 2 ^ n) : a ||| b < 2 ^ n :=
  Nat.bitwise_lt_two_pow ha hb

theorem jsShl_small {g k : Nat} (hg : g < 32) (hk : k ≤ 25) :
    jsShl (g : Int) k = ((g * 2 ^ k : Nat) : Int) := by
  unfold jsShl
  have h1 : g < 4294967296 := by omega
  rw [u32_ofNat h1]
  have hk32 : k % 32 = k := Nat.mod_eq_of_lt (by omega)
  rw [hk32]
  have hbound : g * 2 ^ k < 2147483648 := by
    calc g * 2 ^ k ≤ 31 * 2 ^ 25 := by
          apply Nat.mul_le_mul (by omega)
          exact Nat.pow_le_pow_right (by norm_num) hk
      _ < 2147483648 := by norm_num
  rw [Nat.mod_eq_of_lt (by omega)]
  exact s32_small hbound

theorem jsOr_small {a b : Nat} (ha : a < 2147483648) (hb : b < 2147483648) :
    jsOr (a : Int) (b : Int) = ((a ||| b : Nat) : Int) := by
  unfold jsOr
  rw [u32_ofNat (by omega), u32_ofNat (by omega)]
  refine s32_small ?_
  have h31 : (2147483648 : Nat) = 2 ^ 31 := by norm_num
  rw [h31] at ha hb ⊢
  exact lor_lt_pow ha hb

theorem readChunks_eq_spec : ∀ (l : List Nat) (j r : Nat),
    runLen l + j ≤ 6 → r < 2 ^ (5 * j) →
    (readChunks l (5 * j) ((r : Nat) : Int)).1 = ((readChunksSpec l (5 * j) r).1 : Int) := by
  intro l
  induction l with
  | nil => intro j r _ _; rfl
  | cons c cs ih =>
    intro j r hrun hr
    have hj : j ≤ 5 := by
      have := runLen_pos c cs
      omega
    have h5j : 5 * j ≤ 25 := by omega
    have hg0 : 0 ≤ jsLow5 ((c : Int) - 63) := Int.emod_nonneg _ (by norm_num)
    have hg32 : jsLow5 ((c : Int) - 63) < 32 := Int.emod_lt_of_pos _ (by norm_num)
    have hcast : ((jsLow5 ((c : Int) - 63)).toNat : Int) = jsLow5 ((c : Int) - 63) :=
      Int.toNat_of_nonneg hg0
    set gN : Nat := (jsLow5 ((c : Int) - 63)).toNat with hgN
    have hgNlt : gN < 32 := by omega
    have hrlt : r < 2 ^ 25 :=
      lt_of_lt_of_le hr (Nat.pow_le_pow_right (by norm_num) (by omega))
    have hshl : jsShl (jsLow5 ((c : Int) - 63)) (5 * j) = ((gN * 2 ^ (5 * j) : Nat) : Int) := by
      rw [← hcast]
      exact jsShl_small hgNlt h5j
    have hglt : gN * 2 ^ (5 * j) < 2147483648 := by
      calc gN * 2 ^ (5 * j) ≤ 31 * 2 ^ 25 := by
            apply Nat.mul_le_mul (by omega)
            exact Nat.pow_le_pow_right (by norm_num) h5j
        _ < 2147483648 := by norm_num
    have hor : jsOr ((r : Nat) : Int) ((gN * 2 ^ (5 * j) : Nat) : Int) =
        ((r ||| gN * 2 ^ (5 * j) : Nat) : Int) :=
      jsOr_small (by omega) hglt
    have hkey : jsOr ((r : Nat) : Int) (jsShl (jsLow5 ((c : Int) - 63)) (5 * j)) =
        ((r ||| gN <<< (5 * j) : Nat) : Int) := by
      rw [hshl, hor, Nat.shiftLeft_eq]
    simp only [readChunks, readChunksSpec]
    by_cases hcond : 32 ≤ (c : Int) - 63
    · rw [if_pos hcond, if_pos hcond]
      have hc95 : 95 ≤ c := (byte_ge_iff c).mp hcond
      have hrun' : runLen cs + (j + 1) ≤ 6 := by
        have hr1 : runLen (c :: cs) = runLen cs + 1 := by
          simp only [runLen]; rw [if_pos hc95]
        omega
      have hnew : r ||| gN <<< (5 * j) < 2 ^ (5 * (j + 1)) := by
        rw [Nat.shiftLeft_eq]
        have e : 5 * (j + 1) = 5 * j + 5 := by ring
        rw [e]
        apply lor_lt_pow
        · exact lt_of_lt_of_le hr (Nat.pow_le_pow_right (by norm_num) (by omega))
        · have hpow : 0 < 2 ^ (5 * j) := Nat.pos_pow_of_pos _ (by norm_num)
          have hlt : gN * 2 ^ (5 * j) < 32 * 2 ^ (5 * j) :=
            (Nat.mul_lt_mul_right hpow).mpr hgNlt
          have he2 : (32 : Nat) * 2 ^ (5 * j) = 2 ^ (5 * j + 5) := by
            rw [pow_add]; norm_num [Nat.mul_comm]
          omega
      have := ih (j + 1) (r ||| gN <<< (5 * j)) hrun' hnew
      rw [hkey]
      have e : 5 * (j + 1) = 5 * j + 5 := by ring
      rw [e] at this
      exact this
    · rw [if_neg hcond, if_neg hcond]
      simpa using hkey

theorem decodeLoop_eq_spec : ∀ (fuel : Nat) (l : List Nat) (lat lng : Int),
    goodScan fuel l = true → decodeLoop fuel l lat lng = decodeLoopSpec fuel l lat lng := by
  intro fuel
  induction fuel with
  | zero => intro l lat lng _; rfl
  | succ fuel ih =>
    intro l lat lng hgood
    cases l with
    | nil => rfl
    | cons c cs =>
      simp only [goodScan, Bool.and_eq_true, decide_eq_true_eq] at hgood
      obtain ⟨⟨h1, h2⟩, h3⟩ := hgood
      have e1 : (readChunks (c :: cs) 0 0).1 = ((readChunksSpec (c :: cs) 0 0).1 : Int) := by
        have := readChunks_eq_spec (c :: cs) 0 0 (by simpa using h1) (by norm_num)
        simpa using this
      have e1r : (readChunks (c :: cs) 0 0).2 = (c :: cs).drop (runLen (c :: cs)) :=
        readChunks_snd _ _ _
      have e1rs : (readChunksSpec (c :: cs) 0 0).2 = (c :: cs).drop (runLen (c :: cs)) :=
        readChunksSpec_snd _ _ _
      have e2 : (readChunks ((c :: cs).drop (runLen (c :: cs))) 0 0).1 =
          ((readChunksSpec ((c :: cs).drop (runLen (c :: cs))) 0 0).1 : Int) := by
        have := readChunks_eq_spec ((c :: cs).drop (runLen (c :: cs))) 0 0
          (by simpa using h2) (by norm_num)
        simpa using this
      have e2r : (readChunks ((c :: cs).drop (runLen (c :: cs))) 0 0).2 =
          ((c :: cs).drop (runLen (c :: cs))).drop
            (runLen ((c :: cs).drop (runLen (c :: cs)))) :=
        readChunks_snd _ _ _
      have e2rs : (readChunksSpec ((c :: cs).drop (runLen (c :: cs))) 0 0).2 =
          ((c :: cs).drop (runLen (c :: cs))).drop
            (runLen ((c :: cs).drop (runLen (c :: cs)))) :=
        readChunksSpec_snd _ _ _
      simp only [decodeLoop, decodeLoopSpec]
      rw [e1, e1r, e1rs, e2, e2r, e2rs, ih _ _ _ h3]

theorem decodeLoop_length : ∀ (fuel : Nat) (l : List Nat) (lat lng : Int),
    (decodeLoop fuel l lat lng).length ≤ l.length := by
  intro fuel
  induction fuel with
  | zero => intro l lat lng; simp [decodeLoop]
  | succ fuel ih =>
    intro l lat lng
    cases l with
    | nil => simp [decodeLoop]
    | cons c cs =>
      simp only [decodeLoop, List.length_cons]
      have hrest : ((readChunks (readChunks (c :: cs) 0 0).2 0 0).2).length ≤ cs.length := by
        rw [readChunks_snd, readChunks_snd, List.length_drop, List.length_drop]
        have := runLen_pos c cs
        simp only [List.length_cons]
        omega
      have := ih ((readChunks (readChunks (c :: cs) 0 0).2 0 0).2)
        (0 + zigzagDecode (readChunks (c :: cs) 0 0).1)
        (0 + zigzagDecode (readChunks (readChunks (c :: cs) 0 0).2 0 0).1)
      calc (decodeLoop fuel (readChunks (readChunks (c :: cs) 0 0).2 0 0).2 _ _).length + 1
          ≤ ((readChunks (readChunks (c :: cs) 0 0).2 0 0).2).length + 1 :=
            Nat.add_le_add_right (ih _ _ _) 1
        _ ≤ cs.length + 1 := Nat.add_le_add_right hrest 1

/-! ## Claim C2 -/

/-- C2 (amended): on every input string in which each coordinate's group
run terminates within six groups — which is every string a
correctly-encoded polyline with coordinate magnitudes below `2 ^ 30 /
10 ^ precision` produces — `decodePolyline` computes exactly the
algorithm the specification states: groups of `byte - 63` with the low
five bits kept, read until the `0x20` bit is clear, reassembled
least-significant-group-first, zig-zag decoded, accumulated, and
divided by `10 ^ precision`.  On longer group runs the JavaScript
32-bit `<<`/`|` truncation diverges from the specified reassembly (see
the counterexample). -/
theorem decodePolyline_matches_spec (codes : List Nat) (precision : Nat)
    (h : goodScan codes.length codes = true) :
    decodePolyline codes precision = decodePolylineSpec codes precision := by
  unfold decodePolyline decodePolylineSpec
  rw [decodeLoop_eq_spec _ _ _ _ h]

theorem decodePolyline_matches_spec_witness :
    goodScan (List.length [65, 65]) [65, 65] = true ∧
    decodePolyline [65, 65] 5 = decodePolylineSpec [65, 65] 5 :=
  ⟨by decide, decodePolyline_matches_spec [65, 65] 5 (by decide)⟩

/-- C2 (counterexample): the nine code units `[96, 95, 95, 95, 95, 95,
95, 64, 63]` make the latitude run eight groups long; the eighth group
is shifted by 35, which JavaScript reduces to `35 % 32 = 3`, so the
code accumulates `9` where the specified unbounded reassembly
accumulates `2 ^ 35 + 1`, and the decoded points differ. -/
theorem decodePolyline_spec_cx :
    decodePolyline [96, 95, 95, 95, 95, 95, 95, 64, 63] 5 ≠
      decodePolylineSpec [96, 95, 95, 95, 95, 95, 95, 64, 63] 5 := by
  intro hcontra
  have h1 : decodeLoop (List.length [96, 95, 95, 95, 95, 95, 95, 64, 63])
      [96, 95, 95, 95, 95, 95, 95, 64, 63] 0 0 = [(-5, 0)] := by decide
  have h2 : decodeLoopSpec (List.length [96, 95, 95, 95, 95, 95, 95, 64, 63])
      [96, 95, 95, 95, 95, 95, 95, 64, 63] 0 0 = [(-17179869185, 0)] := by decide
  unfold decodePolyline decodePolylineSpec at hcontra
  rw [h1, h2] at hcontra
  simp only [List.map_cons, List.map_nil, List.cons.injEq, Prod.mk.injEq, and_true] at hcontra
  push_cast at hcontra
  norm_num at hcontra

/-! ## Claim C9 -/

/-- C9: `decodePolyline` terminates on every finite input, malformed
ones included: a group read on a non-empty remainder strictly shortens
it; reading past the end of the string (`charCodeAt` giving `NaN`)
yields a group without the continuation bit and ends the run at once;
and the outer loop therefore emits at most one point per input code
unit. -/
theorem decodePolyline_total_progress :
    (∀ (c : Nat) (cs : List Nat) (shift : Nat) (r : Int),
        ((readChunks (c :: cs) shift r).2).length < (c :: cs).length) ∧
    (∀ (shift : Nat) (r : Int), readChunks [] shift r = (r, [])) ∧
    (∀ (codes : List Nat) (precision : Nat),
        (decodePolyline codes precision).length ≤ codes.length) := by
  refine ⟨?_, ?_, ?_⟩
  · intro c cs shift r
    rw [readChunks_snd, List.length_drop]
    have := runLen_pos c cs
    simp only [List.length_cons]
    omega
  · intro shift r; rfl
  · intro codes precision
    unfold decodePolyline
    rw [List.length_map]
    exact decodeLoop_length _ _ _ _

/-! ## Claim C1 -/

/-- C1 (counterexample): `fetchRoute` imposes no length or endpoint
check on a provider-supplied path.  An OSRM response that is ok and
carries one route with an empty `geometry.coordinates` array produces
the empty path, which has length 0 and neither starts at `from` nor
ends at `to`. -/
theorem fetchRoute_provider_path_cx :
    fetchRoute ((0 : ℚ), (0 : ℚ)) (1, 1) (.ok [[]]) .fail = [] ∧
    ¬ 2 ≤ (fetchRoute ((0 : ℚ), (0 : ℚ)) (1, 1) (.ok [[]]) .fail).length :=
  ⟨rfl, by norm_num [fetchRoute, fetchRouteT]⟩

/-- C1 (amended): when a provider succeeds, `fetchRoute` returns that
provider's path unchecked; the length-2 and endpoint guarantees hold
exactly for the degradation case: whenever neither provider yields a
usable route, the result is the straight line `[from, to]`, whose first
point is `from` and whose last point is `to`. -/
theorem fetchRoute_fallback_line (s e : ℚ × ℚ) (osrm : OsrmOutcome) (gh : GhOutcome)
    (h1 : osrm.usable = false) (h2 : gh.usable = false) :
    fetchRoute s e osrm gh = [s, e] ∧ (fetchRoute s e osrm gh).length = 2 ∧
    (fetchRoute s e osrm gh).head? = some s ∧ (fetchRoute s e osrm gh).getLast? = some e := by
  have hmain : fetchRoute s e osrm gh = [s, e] := by
    unfold fetchRoute fetchRouteT
    cases osrm with
    | fail =>
      cases gh with
      | fail => rfl
      | ok paths =>
        cases paths with
        | nil => rfl
        | cons p ps => simp [GhOutcome.usable] at h2
    | ok routes =>
      cases routes with
      | nil =>
        cases gh with
        | fail => rfl
        | ok paths =>
          cases paths with
          | nil => rfl
          | cons p ps => simp [GhOutcome.usable] at h2
      | cons r rs => simp [OsrmOutcome.usable] at h1
  refine ⟨hmain, ?_, ?_, ?_⟩ <;> rw [hmain] <;> rfl

theorem fetchRoute_fallback_line_witness :
    OsrmOutcome.usable .fail = false ∧ GhOutcome.usable .fail = false ∧
    (fetchRoute ((0 : ℚ), (0 : ℚ)) (1, 2) .fail .fail = [((0 : ℚ), (0 : ℚ)), (1, 2)] ∧
      (fetchRoute ((0 : ℚ), (0 : ℚ)) (1, 2) .fail .fail).length = 2 ∧
      (fetchRoute ((0 : ℚ), (0 : ℚ)) (1, 2) .fail .fail).head? = some ((0 : ℚ), (0 : ℚ)) ∧
      (fetchRoute ((0 : ℚ), (0 : ℚ)) (1, 2) .fail .fail).getLast? = some ((1 : ℚ), (2 : ℚ))) :=
  ⟨rfl, rfl, fetchRoute_fallback_line _ _ _ _ rfl rfl⟩

/-! ## Claim C3 -/

/-- C3: the provider chain is strictly sequential.  Every execution
contacts OSRM; when OSRM yields a route, the call list is `[osrm]`
alone — GraphHopper is never contacted — and the result is OSRM's first
route with the wire order swapped to `(latitude, longitude)`; when OSRM
fails (thrown fetch or empty route list alike) and GraphHopper yields a
path, both are contacted in that order and the result is the polyline
decoded from GraphHopper's first path. -/
theorem fetchRoute_sequencing (s e : ℚ × ℚ) :
    (∀ (r : List (ℚ × ℚ)) (rs : List (List (ℚ × ℚ))) (gh : GhOutcome),
        fetchRouteT s e (.ok (r :: rs)) gh = ([.osrm], r.map fun c => (c.2, c.1))) ∧
    (∀ (p : List Nat) (ps : List (List Nat)),
        fetchRouteT s e .fail (.ok (p :: ps)) = ([.osrm, .graphhopper], decodePolyline p 5)) ∧
    (∀ (p : List Nat) (ps : List (List Nat)),
        fetchRouteT s e (.ok []) (.ok (p :: ps)) =
          ([.osrm, .graphhopper], decodePolyline p 5)) ∧
    (∀ (osrm : OsrmOutcome) (gh : GhOutcome),
        (fetchRouteT s e osrm gh).1 = [.osrm] ∨
          (fetchRouteT s e osrm gh).1 = [.osrm, .graphhopper]) := by
  refine ⟨fun r rs gh => rfl, fun p ps => rfl, fun p ps => rfl, ?_⟩
  intro osrm gh
  unfold fetchRouteT
  cases osrm with
  | ok routes =>
    cases routes with
    | nil =>
      cases gh with
      | ok paths => cases paths <;> simp
      | fail => simp
    | cons r rs => simp
  | fail =>
    cases gh with
    | ok paths => cases paths <;> simp
    | fail => simp

/-! ## Claim C4 -/

/-- C4 (counterexample): `setFromPoint` of `CebuMap.js` never inspects
the stored `fromLocation`.  With `from` already set to `(1, 2, "Home")`
and the pin at `(3, 4)`, a second call silently replaces the stored
waypoint with `(3, 4, "From Location")`. -/
theorem cebuMap_setFromPoint_overwrites_cx :
    (CebuMap.setFromPoint
        ⟨some ⟨3, 4, none⟩, some ⟨1, 2, some "Home"⟩, none, none, []⟩).fromLocation =
      some ⟨3, 4, some "From Location"⟩ ∧
    (CebuMap.setFromPoint
        ⟨some ⟨3, 4, none⟩, some ⟨1, 2, some "Home"⟩, none, none, []⟩).fromLocation ≠
      (⟨some ⟨3, 4, none⟩, some ⟨1, 2, some "Home"⟩, none, none, []⟩ :
          RouteState).fromLocation :=
  ⟨rfl, by decide⟩

/-- C4 (amended): in the `useLocationHandlers` hook, a second
`setFromPoint` without an intervening clear takes the `alreadySet`
branch and leaves the whole state — in particular the stored `from`
waypoint — unchanged, and symmetrically for `setToPoint`.  The inline
`CebuMap.js` variant of the handler lacks this guard and overwrites
(see the counterexample). -/
theorem locationHandlers_set_protected (st : RouteState) (w : Waypoint) :
    (st.fromLocation = some w →
      LocationHandlers.setFromPoint st = (st, some .alreadySet) ∧
      (LocationHandlers.setFromPoint st).1.fromLocation = some w) ∧
    (st.toLocation = some w →
      LocationHandlers.setToPoint st = (st, some .alreadySet) ∧
      (LocationHandlers.setToPoint st).1.toLocation = some w) := by
  constructor
  · intro h
    have hs : st.fromLocation.isSome = true := by rw [h]; rfl
    have he : LocationHandlers.setFromPoint st = (st, some .alreadySet) := by
      unfold LocationHandlers.setFromPoint
      rw [if_pos hs]
    exact ⟨he, by rw [he]; exact h⟩
  · intro h
    have hs : st.toLocation.isSome = true := by rw [h]; rfl
    have he : LocationHandlers.setToPoint st = (st, some .alreadySet) := by
      unfold LocationHandlers.setToPoint
      rw [if_pos hs]
    exact ⟨he, by rw [he]; exact h⟩

theorem locationHandlers_set_protected_witness :
    (⟨some ⟨9, 9, none⟩, some ⟨1, 2, some "Home"⟩, some ⟨3, 4, some "Work"⟩, none, []⟩ :
        RouteState).fromLocation = some ⟨1, 2, some "Home"⟩ ∧
    LocationHandlers.setFromPoint
        ⟨some ⟨9, 9, none⟩, some ⟨1, 2, some "Home"⟩, some ⟨3, 4, some "Work"⟩, none, []⟩ =
      (⟨some ⟨9, 9, none⟩, some ⟨1, 2, some "Home"⟩, some ⟨3, 4, some "Work"⟩, none, []⟩,
        some .alreadySet) ∧
    (⟨some ⟨9, 9, none⟩, some ⟨1, 2, some "Home"⟩, some ⟨3, 4, some "Work"⟩, none, []⟩ :
        RouteState).toLocation = some ⟨3, 4, some "Work"⟩ ∧
    LocationHandlers.setToPoint
        ⟨some ⟨9, 9, none⟩, some ⟨1, 2, some "Home"⟩, some ⟨3, 4, some "Work"⟩, none, []⟩ =
      (⟨some ⟨9, 9, none⟩, some ⟨1, 2, some "Home"⟩, some ⟨3, 4, some "Work"⟩, none, []⟩,
        some .alreadySet) := by
  refine ⟨rfl, ?_, rfl, ?_⟩
  · exact ((locationHandlers_set_protected _ ⟨1, 2, some "Home"⟩).1 rfl).1
  · exact ((locationHandlers_set_protected _ ⟨3, 4, some "Work"⟩).2 rfl).1

/-! ## Claim C5 -/

/-- C5: clicking Set From with the pin at `(1, 2)` and then Clear Route
leaves `from`, `to` and `mode` empty in one step — the atomic half of
the claim holds.  But the reverse-geocode label upgrade spawned by the
Set From click is not invalidated: when it resolves afterwards, its
callback `setFromLocation([lat, lng, formattedAddress])` runs against
the cleared store and re-creates the waypoint as `(1, 2, "Stale St")`.
The resolution is applied, not discarded, so the code contradicts the
claim's (and the specification's) discard requirement. -/
theorem clear_then_stale_label_applied :
    (hookStep (hookStep
        ⟨⟨some ⟨1, 2, none⟩, none, none, none, []⟩, none, none⟩
        .setFromClick) .clearClick).route.fromLocation = none ∧
    (hookStep (hookStep
        ⟨⟨some ⟨1, 2, none⟩, none, none, none, []⟩, none, none⟩
        .setFromClick) .clearClick).route.toLocation = none ∧
    (hookStep (hookStep
        ⟨⟨some ⟨1, 2, none⟩, none, none, none, []⟩, none, none⟩
        .setFromClick) .clearClick).route.routeMode = none ∧
    (hookStep (hookStep (hookStep
        ⟨⟨some ⟨1, 2, none⟩, none, none, none, []⟩, none, none⟩
        .setFromClick) .clearClick)
        (.fromLabelResolved (some "Stale St"))).route.fromLocation =
      some ⟨1, 2, some "Stale St"⟩ := by
  decide

/-! ## Claim C6 -/

/-- C6: the suggest handler's coordinate guard is the truthiness test
`!fromLocation[0] || !fromLocation[1] || !toLocation[0] ||
!toLocation[1]`, run before any network call.  A missing longitude is
rejected as the claim requires, but a coordinate of exactly zero is
falsy and is rejected too — the code treats zero as missing, against
the claim, the specification and the code's own comment. -/
theorem suggest_zero_coordinate_rejected :
    suggestValidate ⟨some [(0 : ℚ), 5], some [1, 2]⟩ = .invalidCoordinates ∧
    suggestValidate ⟨some [(3 : ℚ)], some [1, 2]⟩ = .invalidCoordinates ∧
    suggestValidate ⟨none, some [(1 : ℚ), 2]⟩ = .missingLocations ∧
    suggestValidate ⟨some [(10 : ℚ), 5], some [1, 2]⟩ = .proceed := by
  decide

/-! ## Claim C7 -/

/-- C7: `formatAddress` computes exactly the specified ladder — split
on commas, trim, drop empties, drop administrative noise, keep at most
the first three remaining segments, join at least two with ", ", return
a single survivor alone, otherwise fall back to the first two cleaned
segments and finally to the original string — and maps the example Cebu
address to "123 Colon Street, Barangay Kalunasan, Cebu City". -/
theorem formatAddress_ladder_example :
    (∀ s : String, formatAddress s = formatAddressSpec s) ∧
    formatAddress
        "123 Colon Street, Barangay Kalunasan, Cebu City, Cebu, Central Visayas, 6000, Philippines" =
      some "123 Colon Street, Barangay Kalunasan, Cebu City" := by
  constructor
  · intro s
    simp only [formatAddress, formatAddressSpec]
    by_cases hs : s = ""
    · rw [if_pos hs, if_pos hs]
    · rw [if_neg hs, if_neg hs]
      generalize ((addressParts s).filter fun p => !isUnwanted p).take 3 = rel
      match rel with
      | [] => rfl
      | [x] => rfl
      | x :: y :: ys =>
        have h2 : 2 ≤ (x :: y :: ys).length := by
          simp only [List.length_cons]
          omega
        rw [if_pos h2]
  · decide

/-! ## Claim C10 -/

theorem ne_empty_of_data_ne {s : String} (h : s.data ≠ []) : s ≠ "" := fun he => h (by rw [he])

theorem addressParts_mem_ne {s p : String} (hp : p ∈ addressParts s) : p ≠ "" := by
  unfold addressParts at hp
  rw [List.mem_filter] at hp
  simpa using hp.2

theorem joinWith_ne_empty {x : String} (xs : List String) (hx : x ≠ "") :
    joinWith ", " (x :: xs) ≠ "" := by
  cases xs with
  | nil => simpa [joinWith] using hx
  | cons y ys =>
    simp only [joinWith]
    apply ne_empty_of_data_ne
    rw [String.data_append, String.data_append]
    intro hnil
    rcases List.append_eq_nil.mp hnil with ⟨h1, _⟩
    rcases List.append_eq_nil.mp h1 with ⟨_, hcomma⟩
    exact absurd hcomma (by decide)

theorem formatAddress_cases (s : String) (hs : s ≠ "") :
    ∃ t, formatAddress s = some t ∧ t ≠ "" := by
  simp only [formatAddress, if_neg hs]
  cases hrel : ((addressParts s).filter fun p => !isUnwanted p).take 3 with
  | nil =>
    norm_num
    by_cases hfb : joinWith ", " ((addressParts s).take 2) = ""
    · rw [if_pos hfb]; exact hs
    · rw [if_neg hfb]; exact hfb
  | cons x xs =>
    have hx : x ≠ "" := by
      have hmem : x ∈ ((addressParts s).filter fun p => !isUnwanted p).take 3 := by
        rw [hrel]; exact List.mem_cons_self _ _
      have hmem2 : x ∈ (addressParts s).filter fun p => !isUnwanted p :=
        List.take_subset _ _ hmem
      exact addressParts_mem_ne (List.mem_of_mem_filter hmem2)
    cases xs with
    | nil =>
      norm_num
      exact hx
    | cons y ys =>
      have h2 : 2 ≤ (x :: y :: ys).length := by
        simp only [List.length_cons]
        omega
      rw [if_pos h2]
      exact ⟨_, rfl, joinWith_ne_empty _ hx⟩

/-- C10: `formatAddress` returns null exactly on the falsy input (the
empty string, to which an absent argument is equivalent for this
guard), and on every non-empty input the fallback ladder produces a
non-empty string: joined survivors start with a non-empty cleaned
segment, a single survivor is itself non-empty, and the final fallback
returns either the non-empty join of the first two cleaned segments or
the original input. -/
theorem formatAddress_null_iff_empty (s : String) :
    (formatAddress s = none ↔ s = "") ∧ ∀ t, formatAddress s = some t → t ≠ "" := by
  by_cases hs : s = ""
  · subst hs
    constructor
    · simp [formatAddress]
    · intro t ht
      rw [show formatAddress "" = none from rfl] at ht
      exact Option.noConfusion ht
  · obtain ⟨u, hu, hune⟩ := formatAddress_cases s hs
    constructor
    · rw [hu]
      constructor
      · intro h; exact Option.noConfusion h
      · intro h; exact absurd h hs
    · intro t ht
      rw [hu] at ht
      have he : u = t := by injection ht
      rw [← he]; exact hune

theorem formatAddress_null_iff_empty_witness :
    ("Cebu City" : String) ≠ "" ∧ formatAddress "Cebu City" = some "Cebu City" :=
  ⟨(formatAddress_null_iff_empty "Cebu City").2 "Cebu City" (by decide), by decide⟩

/-! ## Claim C8 -/

/-- C8: a lookup of a point whose rounded key was never stored is
empty; a lookup of the same rounded point misses only after the
60-second deletion timer's deadline, so a store followed by a lookup
before the deadline returns the stored address; and any address a
lookup does return comes from an entry of the cache whose deadline lies
strictly in the future — an entry past its expiry is never returned
(the `setTimeout`-based deletion is modelled by sweeping every entry
whose deadline has passed). -/
theorem geocodeCache_lookup_props :
    (∀ (c : GeocodeCache) (now : ℚ) (p : ℚ × ℚ),
        (∀ e ∈ c, e.key ≠ pointKey p) → cacheLookup c now p = none) ∧
    (∀ (c : GeocodeCache) (t now : ℚ) (p : ℚ × ℚ) (a : String),
        now < t + 60000 → cacheLookup (cacheStore c t p a) now p = some a) ∧
    (∀ (c : GeocodeCache) (now : ℚ) (p : ℚ × ℚ) (a : String),
        cacheLookup c now p = some a →
          ∃ e ∈ c, e.key = pointKey p ∧ e.displayName = a ∧ now < e.expiresAt) := by
  refine ⟨?_, ?_, ?_⟩
  · intro c now p h
    unfold cacheLookup cacheSweep
    rw [List.find?_eq_none.mpr ?_]
    · rfl
    · intro e he
      have hec : e ∈ c := List.mem_of_mem_filter he
      simp only [decide_eq_true_eq]
      exact h e hec
  · intro c t now p a h
    simp [cacheLookup, cacheSweep, cacheStore, List.filter_cons, List.find?_cons, h]
  · intro c now p a h
    unfold cacheLookup at h
    obtain ⟨e, hfind, hmap⟩ :
        ∃ e, (cacheSweep c now).find? (fun e => decide (e.key = pointKey p)) = some e ∧
          e.displayName = a := by
      cases hf : (cacheSweep c now).find? (fun e => decide (e.key = pointKey p)) with
      | none => rw [hf] at h; exact Option.noConfusion h
      | some e =>
        rw [hf] at h
        exact ⟨e, rfl, by injection h⟩
    have hmem : e ∈ cacheSweep c now := List.mem_of_find?_eq_some hfind
    have hpred := List.find?_some hfind
    have hkey : e.key = pointKey p := by simpa using hpred
    have hmemc : e ∈ c := List.mem_of_mem_filter hmem
    have hexp : now < e.expiresAt := by
      have := (List.mem_filter.mp hmem).2
      simpa using this
    exact ⟨e, hmemc, hkey, hmap, hexp⟩

theorem geocodeCache_lookup_props_witness :
    (∀ e ∈ ([] : GeocodeCache), e.key ≠ pointKey ((1 : ℚ), (2 : ℚ))) ∧
    cacheLookup [] 5 ((1 : ℚ), (2 : ℚ)) = none ∧
    (5 : ℚ) < 0 + 60000 ∧
    cacheLookup (cacheStore [] 0 ((1 : ℚ), (2 : ℚ)) "Cebu City") 5 ((1 : ℚ), (2 : ℚ)) =
      some "Cebu City" ∧
    ∃ e ∈ cacheStore [] 0 ((1 : ℚ), (2 : ℚ)) "Cebu City",
      e.key = pointKey ((1 : ℚ), (2 : ℚ)) ∧ e.displayName = "Cebu City" ∧
        (5 : ℚ) < e.expiresAt := by
  have h1 := geocodeCache_lookup_props.1 [] 5 ((1 : ℚ), (2 : ℚ))
    (by intro e he; exact absurd he (List.not_mem_nil e))
  have h2 := geocodeCache_lookup_props.2.1 [] 0 5 ((1 : ℚ), (2 : ℚ)) "Cebu City" (by norm_num)
  have h3 := geocodeCache_lookup_props.2.2 _ 5 ((1 : ℚ), (2 : ℚ)) "Cebu City" h2
  exact ⟨fun e he => absurd he (List.not_mem_nil e), h1, by norm_num, h2, h3⟩

end Ruta
